import Mathlib

/-!
Verification development for the distlib version core
(`src/distlib/version/`): a shallow embedding of the parsing,
ordering, suggestion and matching algorithms, together with theorems
settling the specification claims.

Python values that appear inside version keys (ints, strings, nested
tuples) are modelled by `PyObj`; Python's tuple/str/int comparison
semantics (including the `TypeError` on ordering values of different
types) are modelled by `pyEq`/`pyLt` below.
-/

namespace Distlib

/-- Model of the Python values appearing in version keys: integers,
strings, and (nested) tuples. -/
inductive PyObj : Type where
  | int (i : Int) : PyObj
  | str (s : String) : PyObj
  | tup (l : List PyObj) : PyObj
deriving Repr

mutual

def decEqPyObj : (a b : PyObj) → Decidable (a = b)
  | .int a, .int b =>
    if h : a = b then .isTrue (by rw [h]) else .isFalse (by simp [h])
  | .str a, .str b =>
    if h : a = b then .isTrue (by rw [h]) else .isFalse (by simp [h])
  | .tup a, .tup b =>
    match decEqPyObjList a b with
    | .isTrue h => .isTrue (by rw [h])
    | .isFalse h => .isFalse (by simp [h])
  | .int _, .str _ => .isFalse (by simp)
  | .int _, .tup _ => .isFalse (by simp)
  | .str _, .int _ => .isFalse (by simp)
  | .str _, .tup _ => .isFalse (by simp)
  | .tup _, .int _ => .isFalse (by simp)
  | .tup _, .str _ => .isFalse (by simp)

def decEqPyObjList : (a b : List PyObj) → Decidable (a = b)
  | [], [] => .isTrue rfl
  | [], _ :: _ => .isFalse (by simp)
  | _ :: _, [] => .isFalse (by simp)
  | x :: xs, y :: ys =>
    match decEqPyObj x y, decEqPyObjList xs ys with
    | .isTrue h1, .isTrue h2 => .isTrue (by rw [h1, h2])
    | .isFalse h1, _ => .isFalse (by simp [h1])
    | _, .isFalse h2 => .isFalse (by simp [h2])

end

instance : DecidableEq PyObj := decEqPyObj

mutual

/-- Python `==` on key values: ints compare to ints, strings to strings,
tuples elementwise (same length); values of different types are unequal
(no error). -/
def pyEq : PyObj → PyObj → Bool
  | .int a, .int b => a == b
  | .str a, .str b => a == b
  | .tup a, .tup b => pyEqList a b
  | _, _ => false

/-- Elementwise Python equality of tuples. -/
def pyEqList : List PyObj → List PyObj → Bool
  | [], [] => true
  | x :: xs, y :: ys => pyEq x y && pyEqList xs ys
  | _, _ => false

end

/-- Python `<` on strings: lexicographic by code point (at the first
index where the characters differ, compare them; a proper prefix is
smaller). -/
def strLtb : List Char → List Char → Bool
  | [], [] => false
  | [], _ :: _ => true
  | _ :: _, [] => false
  | a :: as, b :: bs => if a = b then strLtb as bs else decide (a < b)

mutual

/-- Python `<` on key values: ints and strings compare within their type,
tuples lexicographically; ordering values of different types raises
`TypeError`, modelled as `.error ()`. -/
def pyLt : PyObj → PyObj → Except Unit Bool
  | .int a, .int b => .ok (decide (a < b))
  | .str a, .str b => .ok (strLtb a.data b.data)
  | .tup a, .tup b => pyLtList a b
  | _, _ => .error ()

/-- Python lexicographic `<` on tuples: scan while elements are equal;
at the first difference compare the elements; if one side runs out
first the shorter tuple is smaller. -/
def pyLtList : List PyObj → List PyObj → Except Unit Bool
  | [], [] => .ok false
  | [], _ :: _ => .ok true
  | _ :: _, [] => .ok false
  | x :: xs, y :: ys => if pyEq x y then pyLtList xs ys else pyLt x y

end

/-! ## Python-style character and string helpers -/

/-- Characters removed by Python's `str.strip()` with no arguments. -/
def isPySpaceC (c : Char) : Bool :=
  c == ' ' || c == '\t' || c == '\n' || c == '\r' || c == '\x0b' || c == '\x0c'

/-- Python `str.strip()` on a character list. -/
def pyStrip (l : List Char) : List Char :=
  ((l.dropWhile isPySpaceC).reverse.dropWhile isPySpaceC).reverse

/-- Python `str.lower()` (ASCII range, which is all the grammars use). -/
def pyLower (l : List Char) : List Char :=
  l.map Char.toLower

/-- Digits of a decimal numeral to a natural number (Python `int(...)` on
a digit string). -/
def parseNat (l : List Char) : Nat :=
  l.foldl (fun a c => a * 10 + (c.toNat - 48)) 0

/-- Leading digit run of a string and the remainder. -/
def takeDigits (cs : List Char) : List Char × List Char :=
  (cs.takeWhile Char.isDigit, cs.dropWhile Char.isDigit)

theorem length_dropWhile_le (p : Char → Bool) (l : List Char) :
    (l.dropWhile p).length ≤ l.length := by
  induction l with
  | nil => simp [List.dropWhile]
  | cons a l ih =>
    simp only [List.dropWhile]
    cases p a
    · simp
    · simp only []
      have := List.length_cons a l
      omega

/-- Parse `(\.\d+)*` : a run of dot-separated digit groups, returning the
numbers and the unconsumed remainder. Recursion is by a character-count
fuel (each step consumes at least one character, so `length` fuel never
runs out); this keeps the scanners definitionally computable. -/
def moreNumsF : Nat → List Char → (List Nat × List Char)
  | fuel + 1, '.' :: c :: rest =>
    if c.isDigit then
      let ds := c :: rest.takeWhile Char.isDigit
      let r := rest.dropWhile Char.isDigit
      let (ns, r') := moreNumsF fuel r
      (parseNat ds :: ns, r')
    else ([], '.' :: c :: rest)
  | _ + 1, cs => ([], cs)
  | 0, cs => ([], cs)

def moreNums (cs : List Char) : List Nat × List Char :=
  moreNumsF cs.length cs

/-! ## Normalized scheme (PEP 440/426 style), `standard.py` and
`pep426_key` in `version/__init__.py`.

The grammar is the anchored regex
`^(\d+\.\d+(\.\d+)*)((a|b|c|rc)(\d+))?(\.(post)(\d+))?(\.(dev)(\d+))?$`
(identical in `NormalizedVersion.VERSION_REGEX` and
`PEP426_VERSION_RE`; `normalized_key = pep426_key` ignores its second
argument, so both parse entry points share one algorithm). The regex is
deterministic on this grammar, so it is embedded as a straight-line
scanner. -/

/-- Strip trailing zero release segments, keeping at least one number
(`while len(nums) > 1 and nums[-1] == 0: nums = nums[:-1]`). -/
def stripTrailZeros (ns : List Nat) : List Nat :=
  let r := ns.reverse.dropWhile (· = 0)
  if r = [] then [0] else r.reverse

/-- Raw groups of the normalized-version regex: release numbers,
optional prerelease `(tag, n)`, optional post number, optional dev
number. -/
structure NormGroups where
  nums : List Nat
  pre : Option (String × Nat)
  post : Option Nat
  dev : Option Nat
deriving DecidableEq, Repr

/-- Scan the normalized-version grammar (the anchored regex above) on an
already-stripped character list. -/
def normScan (cs : List Char) : Option NormGroups := do
  let (d1, r1) := takeDigits cs
  if d1 = [] then none else
  match r1 with
  | '.' :: r2 =>
    let (d2, r3) := takeDigits r2
    if d2 = [] then none else
    let (extra, r4) := moreNums r3
    let nums := parseNat d1 :: parseNat d2 :: extra
    -- optional prerelease `(a|b|c|rc)(\d+)`
    let (pre, r5) : Option (String × Nat) × List Char :=
      match r4 with
      | 'r' :: 'c' :: t =>
        let (ds, r) := takeDigits t
        if ds = [] then (none, r4) else (some ("rc", parseNat ds), r)
      | c :: t =>
        if c = 'a' ∨ c = 'b' ∨ c = 'c' then
          let (ds, r) := takeDigits t
          if ds = [] then (none, r4) else (some (String.mk [c], parseNat ds), r)
        else (none, r4)
      | [] => (none, [])
    -- optional `\.post(\d+)`
    let (post, r6) : Option Nat × List Char :=
      match r5 with
      | '.' :: 'p' :: 'o' :: 's' :: 't' :: t =>
        let (ds, r) := takeDigits t
        if ds = [] then (none, r5) else (some (parseNat ds), r)
      | _ => (none, r5)
    -- optional `\.dev(\d+)`
    let (dev, r7) : Option Nat × List Char :=
      match r6 with
      | '.' :: 'd' :: 'e' :: 'v' :: t =>
        let (ds, r) := takeDigits t
        if ds = [] then (none, r6) else (some (parseNat ds), r)
      | _ => (none, r6)
    if r7 = [] then
      some ⟨nums, pre, post, dev⟩
    else none
  | _ => none

/-- Build the 4-tuple key of `pep426_key` from the regex groups,
including the sentinel defaults:
`pre = ('a', -1)` for dev-without-post, `pre = ('z',)` otherwise,
`post = ('_',)` and `dev = ('final',)` when absent. -/
def normAssemble (g : NormGroups) : PyObj :=
  let nums := stripTrailZeros g.nums
  let pre : List PyObj :=
    match g.pre with
    | some (tag, n) => [.str tag, .int n]
    | none =>
      if g.post = none ∧ g.dev ≠ none then [.str "a", .int (-1)]
      else [.str "z"]
  let post : List PyObj :=
    match g.post with
    | some n => [.str "post", .int n]
    | none => [.str "_"]
  let dev : List PyObj :=
    match g.dev with
    | some n => [.str "dev", .int n]
    | none => [.str "final"]
  .tup [.tup (nums.map .int), .tup pre, .tup post, .tup dev]

/-- `normalized_key` / `pep426_key` / `NormalizedVersion.parse`: strip the
input, match the grammar, build the key; `none` models the
`ValueError` on strings outside the grammar. -/
def normalized_key (s : String) : Option PyObj :=
  (normScan (pyStrip s.data)).map normAssemble

/-! ## Semantic scheme (`semantic.py`, `semantic_key` in
`version/__init__.py`).

Grammar (the regex `^(\d+)\.(\d+)\.(\d+)(-[a-z0-9]+(\.[a-z0-9-]+)*)?`
`(\+[a-z0-9]+(\.[a-z0-9-]+)*)?$` with `re.I`), again deterministic and
embedded as a scanner. -/

/-- Character class `[a-z0-9]` under `re.I`. -/
def isSemAl (c : Char) : Bool :=
  ('a' ≤ c && c ≤ 'z') || ('A' ≤ c && c ≤ 'Z') || ('0' ≤ c && c ≤ '9')

/-- Character class `[a-z0-9-]` under `re.I`. -/
def isSemAlDash (c : Char) : Bool :=
  isSemAl c || c == '-'

/-- Parse `(\.[a-z0-9-]+)*`: dot-separated identifiers after the first
one, returning the identifiers and the remainder. -/
def semDotIdentsF : Nat → List Char → (List (List Char) × List Char)
  | fuel + 1, '.' :: c :: rest =>
    if isSemAlDash c then
      let run := c :: rest.takeWhile isSemAlDash
      let r := rest.dropWhile isSemAlDash
      let (ids, r') := semDotIdentsF fuel r
      (run :: ids, r')
    else ([], '.' :: c :: rest)
  | _ + 1, cs => ([], cs)
  | 0, cs => ([], cs)

def semDotIdents (cs : List Char) : List (List Char) × List Char :=
  semDotIdentsF cs.length cs

/-- Parse an optional prerelease/build group
`(<lead>[a-z0-9]+(\.[a-z0-9-]+)*)?` where `lead` is `-` or `+`:
`some (none, cs)` = group absent, `some (some ids, r)` = group present,
`none` = the lead character is present but the group cannot match (the
whole regex then fails, since nothing else can consume the lead). -/
def semIdentGroup (lead : Char) (cs : List Char) : Option (Option (List (List Char)) × List Char) :=
  match cs with
  | c :: rest =>
    if c = lead then
      match rest.takeWhile isSemAl, semDotIdents (rest.dropWhile isSemAl) with
      | [], _ => none
      | d :: run, (ids, r') => some (some ((d :: run) :: ids), r')
    else some (none, cs)
  | [] => some (none, [])

/-- A semantic-version key
`((major, minor, patch), prerelease_tuple, build_tuple)`, kept
structured; `SemKey.toPyObj` is the Python tuple it denotes. -/
structure SemKey where
  nums : Nat × Nat × Nat
  pre : List String
  build : List String
deriving DecidableEq, Repr

def SemKey.toPyObj (k : SemKey) : PyObj :=
  .tup [.tup [.int k.nums.1, .int k.nums.2.1, .int k.nums.2.2],
        .tup (k.pre.map .str), .tup (k.build.map .str)]

/-- Python `str.zfill(8)` on a digit-or-identifier chunk, guarded by
`p.isdigit()`: purely-numeric identifiers are zero-padded to width 8,
others kept as-is. -/
def pyZfill8 (p : List Char) : List Char :=
  if p ≠ [] ∧ p.all Char.isDigit then List.replicate (8 - p.length) '0' ++ p else p

/-- `_make_tuple` of `SemanticVersion.parse`: split identifiers (already
split here), zero-fill numeric ones, or the absent-sentinel 1-tuple. -/
def semMakeTuple (ids : Option (List (List Char))) (absent : String) : List String :=
  match ids with
  | none => [absent]
  | some l => l.map (fun p => String.mk (pyZfill8 p))

/-- `semantic_key` / `SemanticVersion.parse` as a structured key:
`none` models the `ValueError` on strings outside the SemVer grammar.
(`parse` itself does not strip; `Version.__init__` strips before
calling it.) -/
def semantic_key_s (s : String) : Option SemKey :=
  match takeDigits s.data with
  | ([], _) => none
  | (d1, r1) =>
    match r1 with
    | '.' :: r2 =>
      match takeDigits r2 with
      | ([], _) => none
      | (d2, r3) =>
        match r3 with
        | '.' :: r4 =>
          match takeDigits r4 with
          | ([], _) => none
          | (d3, r5) =>
            match semIdentGroup '-' r5 with
            | none => none
            | some (preIds, r6) =>
              match semIdentGroup '+' r6 with
              | none => none
              | some (buildIds, r7) =>
                if r7 = [] then
                  some ⟨(parseNat d1, parseNat d2, parseNat d3),
                        semMakeTuple preIds "|", semMakeTuple buildIds "*"⟩
                else none
        | _ => none
    | _ => none

/-- `semantic_key` as the Python tuple value. -/
def semantic_key (s : String) : Option PyObj :=
  (semantic_key_s s).map SemKey.toPyObj

/-- `SemanticVersion.is_prerelease`: the first element of the
prerelease tuple is not the absent-sentinel `'|'`. -/
def semantic_is_prerelease (k : SemKey) : Bool :=
  k.pre.head? != some "|"

/-! ## Legacy scheme (`legacy.py`).

`LegacyVersion.parse` lowercases, splits with
`re.split(r'([a-z]+|\d+|[\.-])', ...)` (pieces between matches are kept,
like `re.split` with a capturing group), remaps tokens, zero-pads
numeric tokens to width 8, prefixes other tokens with `*`, appends
`*final`, then folds with the `*final-`/`00000000` popping rules. -/

/-- One `re.split(r'([a-z]+|\d+|[\.-])', s)` step: the split pieces and
captured separator tokens, in order (pieces may be empty, and hold the
characters matched by no alternative). -/
def legacySplitF : Nat → List Char → List Char → List (List Char)
  | _, acc, [] => [acc.reverse]
  | fuel + 1, acc, c :: rest =>
    if c.isAlpha then
      let run := c :: rest.takeWhile Char.isAlpha
      acc.reverse :: run :: legacySplitF fuel [] (rest.dropWhile Char.isAlpha)
    else if c.isDigit then
      let run := c :: rest.takeWhile Char.isDigit
      acc.reverse :: run :: legacySplitF fuel [] (rest.dropWhile Char.isDigit)
    else if c = '.' ∨ c = '-' then
      acc.reverse :: [c] :: legacySplitF fuel [] rest
    else
      legacySplitF fuel (c :: acc) rest
  | 0, acc, cs => [acc.reverse ++ cs]

def legacySplit (acc : List Char) (cs : List Char) : List (List Char) :=
  legacySplitF cs.length acc cs

/-- The `VERSION_REPLACE` token remap; `none` drops the token. -/
def legacyReplace (p : List Char) : Option (List Char) :=
  if p = "pre".data then some "c".data
  else if p = "preview".data then some "c".data
  else if p = "-".data then some "final-".data
  else if p = "rc".data then some "c".data
  else if p = "dev".data then some "@".data
  else if p = [] then none
  else if p = ".".data then none
  else some p

/-- Plain left-pad with `'0'` to width 8 (Python `zfill(8)` on an
unsigned token). -/
def padZeros8 (p : List Char) : List Char :=
  List.replicate (8 - p.length) '0' ++ p

/-- `_get_parts`: remap each split part, drop falsy ones, zero-pad
numeric parts / star-prefix the rest, and append `*final`. -/
def legacyGetParts (s : List Char) : List (List Char) :=
  ((legacySplit [] (pyLower s)).filterMap (fun part =>
    match legacyReplace part with
    | none => none
    | some p =>
      match p with
      | c :: _ => if '0' ≤ c ∧ c ≤ '9' then some (padZeros8 p) else some ('*' :: p)
      | [] => none)) ++ ["*final".data]

/-- The main fold of `LegacyVersion.parse`, with the accumulated result
kept reversed: before appending a `*`-token below `*final`, pop dangling
`*final-` markers; before appending any `*`-token, pop trailing
all-zero numeric tokens. -/
def legacyFold (res : List (List Char)) : List (List Char) → List (List Char)
  | [] => res
  | part :: rest =>
    let res :=
      if part.head? = some '*' then
        let res :=
          if strLtb part "*final".data then res.dropWhile (· = "*final-".data)
          else res
        res.dropWhile (· = "00000000".data)
      else res
    legacyFold (part :: res) rest

/-- `legacy_key` / `LegacyVersion.parse` (never fails). -/
def legacy_key (s : String) : PyObj :=
  .tup (((legacyFold [] (legacyGetParts (pyStrip s.data))).reverse).map
    (fun p => .str (String.mk p)))

/-! ## Version objects and comparisons (`base.py`). -/

/-- The concrete `Version` subclasses (one per scheme); `type(self) !=
type(other)` in `_check_compatible` is exact-class comparison, so each
scheme is a distinct tag. -/
inductive SchemeTag : Type where
  | normalized | legacy | semantic | adaptive
deriving DecidableEq, Repr

/-- A constructed `Version` instance: its class, its stripped
`_string`, and its `_parts` key. -/
structure PyVersion where
  scheme : SchemeTag
  str : String
  key : PyObj
deriving DecidableEq, Repr

/-- `Version.__init__` for each scheme. -/
def mkNormalizedVersion (s : String) : Option PyVersion :=
  (normalized_key s).map (fun k => ⟨.normalized, String.mk (pyStrip s.data), k⟩)

def mkLegacyVersion (s : String) : Option PyVersion :=
  some ⟨.legacy, String.mk (pyStrip s.data), legacy_key s⟩

def mkSemanticVersion (s : String) : Option PyVersion :=
  (semantic_key (String.mk (pyStrip s.data))).map
    (fun k => ⟨.semantic, String.mk (pyStrip s.data), k⟩)

/-- `Version._check_compatible`: `TypeError` unless the two instances
have the same class. -/
def check_compatible (x y : PyVersion) : Except Unit Unit :=
  if x.scheme = y.scheme then .ok () else .error ()

/-- `Version.__eq__`: check compatibility, then compare keys (a
`TypeError` from the check propagates). -/
def vEq (x y : PyVersion) : Except Unit Bool :=
  match check_compatible x y with
  | .error e => .error e
  | .ok _ => .ok (pyEq x.key y.key)

/-- `Version.__ne__ = not __eq__` (errors propagate). -/
def vNe (x y : PyVersion) : Except Unit Bool :=
  match vEq x y with
  | .error e => .error e
  | .ok b => .ok (!b)

/-- `Version.__lt__`: check compatibility, then compare keys. -/
def vLt (x y : PyVersion) : Except Unit Bool :=
  match check_compatible x y with
  | .error e => .error e
  | .ok _ => pyLt x.key y.key

/-- `Version.__gt__ = not (__lt__ or __eq__)` with Python `or`
short-circuiting. -/
def vGt (x y : PyVersion) : Except Unit Bool :=
  match vLt x y with
  | .error e => .error e
  | .ok true => .ok false
  | .ok false =>
    match vEq x y with
    | .error e => .error e
    | .ok b => .ok (!b)

/-- `Version.__le__ = __lt__ or __eq__`. -/
def vLe (x y : PyVersion) : Except Unit Bool :=
  match vLt x y with
  | .error e => .error e
  | .ok true => .ok true
  | .ok false => vEq x y

/-- `Version.__ge__ = __gt__ or __eq__`. -/
def vGe (x y : PyVersion) : Except Unit Bool :=
  match vGt x y with
  | .error e => .error e
  | .ok true => .ok true
  | .ok false => vEq x y

/-! ## The normalized matcher's prefix matching (`standard.py`). -/

/-- `_match_at_front(x, y)`: true if `x == y` (Version equality), or
`str(x)` starts with `str(y)` and the next character of `str(x)` is a
dot; Python's `x[n]` would raise `IndexError` if `str(x)` were a proper
prefix of itself, modelled by `.error`. -/
def match_at_front (x y : PyVersion) : Except Unit Bool :=
  match vEq x y with
  | .error e => .error e
  | .ok true => .ok true
  | .ok false =>
    if y.str.data.isPrefixOf x.str.data then
      match x.str.data.get? y.str.data.length with
      | some c => .ok (c == '.')
      | none => .error ()
    else .ok false

/-- The boolean "prefix match" relation the spec describes for `==`:
`str(x)` starts with `str(y)` followed immediately by a `.`. -/
def startsWithDot (x y : String) : Bool :=
  y.data.isPrefixOf x.data && (x.data.get? y.data.length == some '.')

/-- `NormalizedMatcher._operators`: `<=`/`>=`/`==`/`!=` overridden to use
`_match_at_front`; `<` and `>` inherited from `Matcher`. -/
def normalized_op (op : String) (x y : PyVersion) : Except Unit Bool :=
  match op with
  | "<" => vLt x y
  | ">" => vGt x y
  | "<=" =>
    match match_at_front x y with
    | .error e => .error e
    | .ok true => .ok true
    | .ok false => vLt x y
  | ">=" =>
    match match_at_front x y with
    | .error e => .error e
    | .ok true => .ok true
    | .ok false => vGt x y
  | "==" => match_at_front x y
  | "!=" =>
    match match_at_front x y with
    | .error e => .error e
    | .ok b => .ok (!b)
  | _ => .error ()

/-- The base `Matcher._operators` table. -/
def base_op (op : String) (x y : PyVersion) : Except Unit Bool :=
  match op with
  | "<" => vLt x y
  | ">" => vGt x y
  | "<=" => vLe x y
  | ">=" => vGe x y
  | "==" => vEq x y
  | "!=" => vNe x y
  | _ => .error ()

/-! ## Matcher construction and matching (`base.py`). -/

/-- A constructed `Matcher`: subject name, lowercase key, and the
ordered constraint list `_parts`. -/
structure PyMatcher where
  name : String
  key : String
  parts : List (String × PyVersion)
deriving DecidableEq, Repr

/-- `\w` (ASCII). -/
def isWordC (c : Char) : Bool :=
  c.isAlpha || c.isDigit || c == '_'

/-- The class `[\s\w'.-]` of `predicate_re`'s name tail. -/
def isNameC (c : Char) : Bool :=
  isPySpaceC c || isWordC c || c == '\'' || c == '.' || c == '-'

/-- Split a character list on a separator character (Python
`str.split(sep)`, which keeps empty pieces). -/
def splitOnChar (sep : Char) (cs : List Char) : List (List Char) :=
  match cs with
  | [] => [[]]
  | c :: rest =>
    let r := splitOnChar sep rest
    if c = sep then [] :: r
    else
      match r with
      | piece :: more => (c :: piece) :: more
      | [] => [[c]]

/-- Match `constraint_re = ^(<=|>=|<|>|!=|==)?\s*([^\s,]+)$` on one
(then already stripped) constraint, with the regex's alternation order
and backtracking: the first operator alternative (longest first, then
absent, defaulting to `==`) whose remainder fits `\s*[^\s,]+$` wins. -/
def constraint_split (cs : List Char) : Option (String × List Char) :=
  let fits : List Char → Option (List Char) := fun r =>
    let r2 := r.dropWhile isPySpaceC
    if r2 ≠ [] ∧ r2.all (fun c => ¬ isPySpaceC c ∧ c ≠ ',') then some r2 else none
  let tryOp : String → Option (String × List Char) := fun op =>
    if op.data.isPrefixOf cs then
      (fits (cs.drop op.data.length)).map (fun r2 => (op, r2))
    else none
  (tryOp "<=").orElse fun _ =>
  (tryOp ">=").orElse fun _ =>
  (tryOp "<").orElse fun _ =>
  (tryOp ">").orElse fun _ =>
  (tryOp "!=").orElse fun _ =>
  (tryOp "==").orElse fun _ =>
  (fits cs).map (fun r2 => ("==", r2))

/-- Parse one constraint to an `(operator, Version)` pair using the
scheme's version constructor. -/
def parse_constraint (parseV : String → Option PyVersion) (cs : List Char) :
    Option (String × PyVersion) := do
  let (op, vstr) ← constraint_split cs
  let v ← parseV (String.mk vstr)
  pure (op, v)

/-- `Matcher.__init__`: strip, match
`predicate_re = ^(\w[\s\w'.-]*)(\((.*)\))?` (the optional group takes
the text between the first `(` after the name and the last `)` before
any newline; with no such group, or an empty one, there are no
constraints and trailing text is ignored), then split the constraint
list on commas and parse each constraint. -/
def parse_matcher (parseV : String → Option PyVersion) (s : String) : Option PyMatcher :=
  match pyStrip s.data with
  | [] => none
  | c :: rest =>
    if isWordC c then
      let nameRun := c :: rest.takeWhile isNameC
      let after := rest.dropWhile isNameC
      let name := String.mk (pyStrip nameRun)
      let clist : Option (List Char) :=
        match after with
        | '(' :: t =>
          let seg := t.takeWhile (· ≠ '\n')
          match seg.reverse.dropWhile (· ≠ ')') with
          | ')' :: revContent => some revContent.reverse
          | _ => none
        | _ => none
      match clist with
      | none => some ⟨name, String.mk (pyLower name.data), []⟩
      | some [] => some ⟨name, String.mk (pyLower name.data), []⟩
      | some content =>
        ((splitOnChar ',' content).mapM
            (fun piece => parse_constraint parseV (pyStrip piece))).map
          (fun parts => ⟨name, String.mk (pyLower name.data), parts⟩)
    else none

/-- The constraint loop of `Matcher.match`: logical AND over all
constraints, short-circuiting on the first failure. -/
def matcher_match_go (ops : String → PyVersion → PyVersion → Except Unit Bool)
    (v : PyVersion) : List (String × PyVersion) → Except Unit Bool
  | [] => .ok true
  | (op, c) :: rest => do
    let b ← ops op v c
    if b then matcher_match_go ops v rest else pure false

/-- `Matcher.match` on an already-constructed version. -/
def matcher_match (ops : String → PyVersion → PyVersion → Except Unit Bool)
    (m : PyMatcher) (v : PyVersion) : Except Unit Bool :=
  matcher_match_go ops v m.parts

/-- End-to-end `NormalizedMatcher` use: parse the matcher, parse the
candidate string, run `match`; `none` models the `ValueError`s /
`TypeError`s on the way. -/
def nMatch (mstr vstr : String) : Option Bool := do
  let m ← parse_matcher mkNormalizedVersion mstr
  let v ← mkNormalizedVersion vstr
  match matcher_match normalized_op m v with
  | .ok b => some b
  | .error _ => none

/-! ## Regex-substitution helpers for the suggestion pipelines.

Each `re.sub` in the source uses a pattern that is either anchored at
the end of the string or simple enough to scan left to right; they are
embedded as dedicated scanners with re's leftmost / greedy /
alternation-order semantics. For a pattern anchored by `$`, the
leftmost match is the longest suffix matched by the pattern, so
`subEnd` scans for the first position whose entire remaining suffix
matches. -/

/-- Python `str.replace(pat, repl)`: replace all non-overlapping
occurrences, left to right. -/
def strReplaceAllF (pat repl : List Char) : Nat → List Char → List Char
  | _, [] => []
  | fuel + 1, c :: rest =>
    if pat ≠ [] ∧ pat.isPrefixOf (c :: rest) then
      repl ++ strReplaceAllF pat repl fuel ((c :: rest).drop pat.length)
    else c :: strReplaceAllF pat repl fuel rest
  | 0, l => l

def strReplaceAll (pat repl : List Char) (l : List Char) : List Char :=
  strReplaceAllF pat repl l.length l

/-- `re.sub` for an end-anchored pattern: replace the longest suffix
that fully matches `p` (none of the source's end-anchored patterns
matches the empty suffix). -/
def subEnd (p : List Char → Bool) (repl : List Char → List Char) : List Char → List Char
  | [] => []
  | c :: rest => if p (c :: rest) then repl (c :: rest) else c :: subEnd p repl rest

/-- `(\d+)` : nonempty all-digit chunk. -/
def allDigits1 (l : List Char) : Bool :=
  !l.isEmpty && l.all Char.isDigit

/-- Maximal all-digit suffix (the `(\d+)$` group of the end-anchored
patterns). -/
def digitSuffix (l : List Char) : List Char :=
  (l.reverse.takeWhile Char.isDigit).reverse

/-- Consume an optional leading `.` (forced in all its uses: the
following pattern part can never match a dot). -/
def dropLeadDot : List Char → List Char
  | '.' :: t => t
  | l => l

/-- Consume an optional leading `.` or `-` (forced likewise). -/
def dropLeadSep : List Char → List Char
  | '.' :: t => t
  | '-' :: t => t
  | l => l

def isABC (c : Char) : Bool :=
  c == 'a' || c == 'b' || c == 'c'

/-- `([abc]|rc)[\-\.](\d+)$` as a full-suffix match. -/
def pPrerelSep : List Char → Bool
  | 'r' :: 'c' :: sep :: ds => (sep == '-' || sep == '.') && allDigits1 ds
  | c :: sep :: ds => isABC c && (sep == '-' || sep == '.') && allDigits1 ds
  | _ => false

/-- Replacement `\1\2` for `pPrerelSep`: delete the separator. -/
def rPrerelSep : List Char → List Char
  | 'r' :: 'c' :: _ :: ds => 'r' :: 'c' :: ds
  | c :: _ :: ds => c :: ds
  | l => l

/-- `[\-\.](dev)[\-\.]?r?(\d+)$` as a full-suffix match. -/
def pDevSep : List Char → Bool
  | sep :: 'd' :: 'e' :: 'v' :: t =>
    (sep == '-' || sep == '.') &&
      (let t1 := dropLeadSep t
       let t2 := match t1 with | 'r' :: u => u | _ => t1
       allDigits1 t2)
  | _ => false

/-- Replacement `.dev` + digits (used by the three dev-digit rewrites,
whose replacement text is `.\1\2` with `\1 = dev`, or `.dev\2`). -/
def rDevDigits (l : List Char) : List Char :=
  ".dev".data ++ digitSuffix l

/-- Replacement `.post` + digits. -/
def rPostDigits (l : List Char) : List Char :=
  ".post".data ++ digitSuffix l

theorem length_dropLeadDot_le (l : List Char) : (dropLeadDot l).length ≤ l.length := by
  unfold dropLeadDot
  split
  · simp
  · exact Nat.le_refl _

/-- Global `[.~]?([abc])\.?` → `\1`: drop a dot/tilde before and a dot
after each `a`/`b`/`c`, scanning left to right (greedy, leftmost,
non-overlapping). -/
def subAbcTidyF : Nat → List Char → List Char
  | fuel + 1, c1 :: c2 :: rest =>
    if (c1 == '.' || c1 == '~') && isABC c2 then
      c2 :: subAbcTidyF fuel (dropLeadDot rest)
    else if isABC c1 then
      c1 :: subAbcTidyF fuel (dropLeadDot (c2 :: rest))
    else c1 :: subAbcTidyF fuel (c2 :: rest)
  | _, l => l

def subAbcTidy (l : List Char) : List Char :=
  subAbcTidyF l.length l

/-- The replacement of one digit run for `\b0+(\d+)(?!\d)` → `\1`: the
run loses its leading zeros (keeping a last `0` if it was all zeros);
runs of a single digit or not starting with `0` have no match. -/
def zeroStripRun (run : List Char) : List Char :=
  if run.head? = some '0' ∧ 2 ≤ run.length then
    let t := run.dropWhile (· = '0')
    if t = [] then ['0'] else t
  else run

/-- Global `\b0+(\d+)(?!\d)` → `\1`: strip leading zeros of each digit
run that starts at a word boundary. -/
def subLeadZerosF : Nat → Bool → List Char → List Char
  | _, _, [] => []
  | fuel + 1, prevWord, c :: rest =>
    if c.isDigit && !prevWord then
      zeroStripRun (c :: rest.takeWhile Char.isDigit) ++
        subLeadZerosF fuel true (rest.dropWhile Char.isDigit)
    else c :: subLeadZerosF fuel (isWordC c) rest
  | 0, _, l => l

def subLeadZeros (prevWord : Bool) (l : List Char) : List Char :=
  subLeadZerosF l.length prevWord l

/-- `(\d+[abc])$` as a full-suffix match. -/
def pNumAbc (l : List Char) : Bool :=
  match l.reverse with
  | c :: ds => isABC c && allDigits1 ds
  | [] => false

/-- `\.?(dev-r|dev\.r)\.?(\d+)$` as a full-suffix match. -/
def pDevR (l : List Char) : Bool :=
  match dropLeadDot l with
  | 'd' :: 'e' :: 'v' :: x :: 'r' :: t => (x == '-' || x == '.') && allDigits1 (dropLeadDot t)
  | _ => false

/-- `-(a|b|c)(\d+)$` as a full-suffix match. -/
def pDashAbc : List Char → Bool
  | '-' :: c :: ds => isABC c && allDigits1 ds
  | _ => false

/-- Replacement `\1\2` for `pDashAbc`: delete the dash. -/
def rDashAbc : List Char → List Char
  | '-' :: c :: ds => c :: ds
  | l => l

/-- `[\.\-](dev|devel)$` as a full-suffix match. -/
def pDevDevel : List Char → Bool
  | sep :: 'd' :: 'e' :: 'v' :: t =>
    (sep == '.' || sep == '-') && (t = [] ∨ t = "el".data)
  | _ => false

/-- `(?![\.\-])dev$`: the lookahead inspects the `d` at the match start
and always holds, so this is `dev$` as a full-suffix match. -/
def pBareDev (l : List Char) : Bool :=
  l = "dev".data

/-- `(final|stable)$` as a full-suffix match. -/
def pFinalStable (l : List Char) : Bool :=
  l = "final".data ∨ l = "stable".data

/-- `\.?(\d+)$` tail of `pPost`. -/
def pPostCore (l : List Char) : Bool :=
  allDigits1 (dropLeadDot l)

/-- The `(r|-|-r)\.?(\d+)$` part of `pPost`, trying the alternatives of
the group. -/
def pPostB : List Char → Bool
  | 'r' :: t => pPostCore t
  | '-' :: 'r' :: t => pPostCore t || pPostCore ('r' :: t)
  | '-' :: t => pPostCore t
  | _ => false

/-- `\.?(r|-|-r)\.?(\d+)$` as a full-suffix match. -/
def pPost : List Char → Bool
  | '.' :: t => pPostB t
  | l => pPostB l

/-- `\.?(dev|git|bzr)\.?(\d+)$` as a full-suffix match. -/
def pDGB (l : List Char) : Bool :=
  match dropLeadDot l with
  | 'd' :: 'e' :: 'v' :: t => allDigits1 (dropLeadDot t)
  | 'g' :: 'i' :: 't' :: t => allDigits1 (dropLeadDot t)
  | 'b' :: 'z' :: 'r' :: t => allDigits1 (dropLeadDot t)
  | _ => false

/-- The `(pre|preview|-c)(\d+)$` part of `pPreC`. -/
def pPreCB : List Char → Bool
  | 'p' :: 'r' :: 'e' :: 'v' :: 'i' :: 'e' :: 'w' :: ds => allDigits1 ds
  | 'p' :: 'r' :: 'e' :: ds => allDigits1 ds
  | '-' :: 'c' :: ds => allDigits1 ds
  | _ => false

/-- `\.?(pre|preview|-c)(\d+)$` as a full-suffix match. -/
def pPreC (l : List Char) : Bool :=
  pPreCB (dropLeadDot l)

/-- Replacement `c\g<2>` for `pPreC`. -/
def rPreC (l : List Char) : List Char :=
  'c' :: digitSuffix l

/-- `p(\d+)$` as a full-suffix match. -/
def pTcl : List Char → Bool
  | 'p' :: ds => allDigits1 ds
  | _ => false

/-! ## `NormalizedVersionScheme.suggest` (`standard.py`). -/

/-- The 15 plain `str.replace` pairs of `suggest`, in source order. -/
def nsReplacePairs : List (List Char × List Char) :=
  [("-alpha".data, "a".data), ("-beta".data, "b".data), ("alpha".data, "a".data),
   ("beta".data, "b".data), ("rc".data, "c".data), ("-final".data, []),
   ("-pre".data, "c".data), ("-release".data, []), (".release".data, []),
   ("-stable".data, []), ("+".data, ".".data), ("_".data, ".".data),
   (" ".data, []), (".final".data, []), ("final".data, [])]

/-- The full rewrite pipeline of `NormalizedVersionScheme.suggest`
(everything between the failed initial parse and the final parse
attempt), in source order. -/
def normalized_rewrite (s : String) : String :=
  let l := pyLower s.data
  let l := nsReplacePairs.foldl (fun acc pr => strReplaceAll pr.1 pr.2 acc) l
  let l := subEnd (· = "pre".data) (fun _ => "pre0".data) l
  let l := subEnd (· = "dev".data) (fun _ => "dev0".data) l
  let l := subEnd pPrerelSep rPrerelSep l
  let l := subEnd pDevSep rDevDigits l
  let l := subAbcTidy l
  let l := match l with | 'v' :: t => t | _ => l
  let l := subLeadZeros false l
  let l := subEnd pNumAbc (fun m => m ++ ['0']) l
  let l := subEnd pDevR rDevDigits l
  let l := subEnd pDashAbc rDashAbc l
  let l := subEnd pDevDevel (fun _ => ".dev0".data) l
  let l := subEnd pBareDev (fun _ => ".dev0".data) l
  let l := subEnd pFinalStable (fun _ => []) l
  let l := subEnd pPost rPostDigits l
  let l := subEnd pDGB rDevDigits l
  let l := subEnd pPreC rPreC l
  let l := subEnd pTcl rPostDigits l
  String.mk l

/-- `NormalizedVersionScheme.suggest`: return the input unchanged if it
already parses, else rewrite and return the rewritten string if that
parses, else no suggestion. -/
def normalized_suggest (s : String) : Option String :=
  if (normalized_key s).isSome then some s
  else
    let t := normalized_rewrite s
    if (normalized_key t).isSome then some t else none

/-- `VersionScheme.suggest` of `base.py` returns its argument
unchanged; `LegacyVersionScheme` does not override it, so this is the
legacy scheme's suggester (it never returns null). -/
def legacy_suggest (s : String) : Option String :=
  some s

/-! ## `suggest_semantic_version` (`version/__init__.py`). -/

/-- Word-boundary test for the character after a `\b`-closed match. -/
def boundaryAfter : List Char → Bool
  | [] => true
  | d :: _ => !isWordC d

/-- Global `\b(alfa|apha)\b` → `alpha` (`prevWord` tracks whether the
previous original character was a word character). -/
def subAlfaF : Nat → Bool → List Char → List Char
  | _, _, [] => []
  | fuel + 1, prevWord, c :: rest =>
    if !prevWord && ("alfa".data.isPrefixOf (c :: rest) || "apha".data.isPrefixOf (c :: rest))
        && boundaryAfter ((c :: rest).drop 4) then
      "alpha".data ++ subAlfaF fuel true ((c :: rest).drop 4)
    else c :: subAlfaF fuel (isWordC c) rest
  | 0, _, l => l

def subAlfa (prevWord : Bool) (l : List Char) : List Char :=
  subAlfaF l.length prevWord l

/-- Global `\b(pre-alpha|prealpha)\b` → `pre.alpha`. -/
def subPreAlphaF : Nat → Bool → List Char → List Char
  | _, _, [] => []
  | fuel + 1, prevWord, c :: rest =>
    if !prevWord && "pre-alpha".data.isPrefixOf (c :: rest)
        && boundaryAfter ((c :: rest).drop 9) then
      "pre.alpha".data ++ subPreAlphaF fuel true ((c :: rest).drop 9)
    else if !prevWord && "prealpha".data.isPrefixOf (c :: rest)
        && boundaryAfter ((c :: rest).drop 8) then
      "pre.alpha".data ++ subPreAlphaF fuel true ((c :: rest).drop 8)
    else c :: subPreAlphaF fuel (isWordC c) rest
  | 0, _, l => l

def subPreAlpha (prevWord : Bool) (l : List Char) : List Char :=
  subPreAlphaF l.length prevWord l

/-- Global `[.]{2,}` → `.`: collapse runs of two or more dots. -/
def collapseDotsF : Nat → List Char → List Char
  | fuel + 1, '.' :: '.' :: rest => '.' :: collapseDotsF fuel (rest.dropWhile (· = '.'))
  | fuel + 1, c :: rest => c :: collapseDotsF fuel rest
  | _, [] => []
  | 0, l => l

def collapseDots (l : List Char) : List Char :=
  collapseDotsF l.length l

/-- `\s*(\d+)` tail of the leading `v(ersion)?` / `r(ev)?` rewrites:
skip whitespace and require a digit; the replacement `\2` keeps
everything from the digits on. -/
def vrTail (t : List Char) : Option (List Char) :=
  let u := t.dropWhile isPySpaceC
  match u with
  | c :: _ => if c.isDigit then some u else none
  | [] => none

/-- `^v(ersion)?\s*(\d+)` → `\2`, trying the longer alternative first as
the regex does. -/
def subVersionV (l : List Char) : List Char :=
  match l with
  | 'v' :: t =>
    if "ersion".data.isPrefixOf t then
      match vrTail (t.drop 6) with
      | some u => u
      | none =>
        match vrTail t with
        | some u => u
        | none => l
    else
      match vrTail t with
      | some u => u
      | none => l
  | _ => l

/-- `^r(ev)?\s*(\d+)` → `\2`. -/
def subVersionR (l : List Char) : List Char :=
  match l with
  | 'r' :: t =>
    if "ev".data.isPrefixOf t then
      match vrTail (t.drop 2) with
      | some u => u
      | none =>
        match vrTail t with
        | some u => u
        | none => l
    else
      match vrTail t with
      | some u => u
      | none => l
  | _ => l

/-- The `_REPLACEMENTS` stage of `suggest_semantic_version`, in source
order. -/
def semStageOne (l : List Char) : List Char :=
  let l := subEnd (fun m => m = ['.'] ∨ m = ['+'] ∨ m = ['-']) (fun _ => []) l
  let l := match l with
           | '.' :: d :: t => if d.isDigit then '0' :: '.' :: d :: t else '.' :: d :: t
           | _ => l
  let l := match l with
           | '.' :: t => t
           | '-' :: t => t
           | _ => l
  let l := match l with
           | '(' :: t =>
             match t.reverse with
             | ')' :: revMid =>
               if revMid.all (· ≠ '\n') then revMid.reverse else '(' :: t
             | _ => '(' :: t
           | _ => l
  let l := subVersionV l
  let l := subVersionR l
  let l := collapseDots l
  let l := subAlfa false l
  let l := subPreAlpha false l
  let l := subEnd (· = "(beta)".data) (fun _ => "beta".data) l
  l

/-- The `_SUFFIX_REPLACEMENTS` stage of `suggest_semantic_version`, in
source order. -/
def semSuffixStage (l : List Char) : List Char :=
  let leadPunct : Char → Bool := fun c =>
    c == ':' || c == '~' || c == '.' || c == '_' || c == '+' || c == '-'
  let unwanted : Char → Bool := fun c =>
    c == ',' || c == '*' || c == '"' || c == ')' || c == '(' || c == '[' || c == ']'
  let illegal : Char → Bool := fun c =>
    c == '~' || c == ':' || c == '+' || c == '_' || c == ' ' || c == '-'
  let l := l.dropWhile leadPunct
  let l := l.filter (fun c => !unwanted c)
  let l := l.map (fun c => if illegal c then '.' else c)
  let l := collapseDots l
  let l := subEnd (· = ['.']) (fun _ => []) l
  l

/-- Substring test (Python `in` on strings). -/
def listInfixOf (pat : List Char) : List Char → Bool
  | [] => pat.isEmpty
  | c :: rest => pat.isPrefixOf (c :: rest) || listInfixOf pat rest

/-- Decimal rendering of a parsed number list, dot-joined
(`'.'.join(str(i) for i in ...)`). -/
def joinDots : List Nat → List Char
  | [] => []
  | [n] => (toString n).data
  | n :: rest => (toString n).data ++ '.' :: joinDots rest

/-- `suggest_semantic_version`: strip/lower, apply `_REPLACEMENTS`,
default an empty result to `0.0.0`, split off the leading numeric
prefix `(\d+(\.\d+)*)`, pad or truncate it to exactly three components
(folding overflow components into the suffix), clean the suffix with
`_SUFFIX_REPLACEMENTS`, join with `-` if the suffix mentions `dev` else
`+`, and finally validate against the SemVer grammar. -/
def suggest_semantic_version (s : String) : Option String :=
  let l := semStageOne (pyLower (pyStrip s.data))
  let l := if l = [] then "0.0.0".data else l
  let (d1, r1) := takeDigits l
  let (pref, suffix) :=
    if d1 = [] then ("0.0.0".data, l)
    else
      let (ns, rest) := moreNums r1
      let nums := parseNat d1 :: ns
      let padded := if nums.length < 3 then nums ++ List.replicate (3 - nums.length) 0 else nums
      let suffix :=
        if padded.length = 3 then rest
        else joinDots (padded.drop 3) ++ rest
      (joinDots (padded.take 3), pyStrip suffix)
  let suffix := if suffix ≠ [] then semSuffixStage suffix else suffix
  let result :=
    if suffix = [] then pref
    else
      let sep : Char := if listInfixOf "dev".data suffix then '-' else '+'
      pref ++ sep :: suffix
  if (semantic_key_s (String.mk result)).isSome then some (String.mk result) else none

/-- `suggest_adaptive_version`: first non-null of the normalized and
semantic suggestions (neither can return an empty, falsy string: both
only return strings accepted by their scheme's grammar, or the
non-empty input). -/
def suggest_adaptive_version (s : String) : Option String :=
  match normalized_suggest s with
  | some t => some t
  | none => suggest_semantic_version s

/-! ## `adaptive_key` (`version/__init__.py`). -/

/-- `adaptive_key`: try the normalized parse; on failure take a
normalized suggestion and parse that if non-null; otherwise parse the
original string with the semantic scheme. Errors of the fallback
parses propagate (`none`). -/
def adaptive_key (s : String) : Option PyObj :=
  match normalized_key s with
  | some k => some k
  | none =>
    match normalized_suggest s with
    | some ss => normalized_key ss
    | none => semantic_key s

/-! ## Theorems -/

/-- C3 (confirmed): under the normalized scheme `parse("1.0")` equals
`parse("1.0.0")` (trailing zero release segments stripped, at least one
kept), and with the sentinel defaults `pre = ("a", -1)` for
dev-without-post, `pre = ("z",)` otherwise, `post = ("_",)`,
`dev = ("final",)`, the keys order as
`1.0.dev1 < 1.0a1 < 1.0 < 1.0.post1`. -/
theorem normalized_ordering_examples :
    normalized_key "1.0" = normalized_key "1.0.0" ∧
    normalized_key "1.0.dev1" =
      some (.tup [.tup [.int 1], .tup [.str "a", .int (-1)],
                  .tup [.str "_"], .tup [.str "dev", .int 1]]) ∧
    normalized_key "1.0a1" =
      some (.tup [.tup [.int 1], .tup [.str "a", .int 1],
                  .tup [.str "_"], .tup [.str "final"]]) ∧
    normalized_key "1.0" =
      some (.tup [.tup [.int 1], .tup [.str "z"],
                  .tup [.str "_"], .tup [.str "final"]]) ∧
    normalized_key "1.0.post1" =
      some (.tup [.tup [.int 1], .tup [.str "z"],
                  .tup [.str "post", .int 1], .tup [.str "final"]]) ∧
    (do pyLt (← normalized_key "1.0.dev1") (← normalized_key "1.0a1") :
      Option (Except Unit Bool)) = some (.ok true) ∧
    (do pyLt (← normalized_key "1.0a1") (← normalized_key "1.0") :
      Option (Except Unit Bool)) = some (.ok true) ∧
    (do pyLt (← normalized_key "1.0") (← normalized_key "1.0.post1") :
      Option (Except Unit Bool)) = some (.ok true) :=
  ⟨rfl, rfl, rfl, rfl, rfl, rfl, rfl, rfl⟩

/-- C7 (confirmed): under the legacy scheme `parse("1.0")` equals
`parse("1.0.0")`: the fold pops the trailing all-zero numeric token
`"00000000"` before appending the `*final` marker, so both strings give
the key `("00000001", "*final")`. -/
theorem legacy_trailing_zero_examples :
    legacy_key "1.0" = .tup [.str "00000001", .str "*final"] ∧
    legacy_key "1.0.0" = .tup [.str "00000001", .str "*final"] ∧
    legacy_key "1.0" = legacy_key "1.0.0" :=
  ⟨rfl, rfl, rfl⟩

/-- C8 (confirmed): under the semantic scheme
`parse("1.0.0-alpha") < parse("1.0.0-alpha.1") < parse("1.0.0")`, and
the purely-numeric prerelease identifier `1` is zero-padded to
`"00000001"` in the key. -/
theorem semantic_ordering_examples :
    semantic_key_s "1.0.0-alpha" = some ⟨(1, 0, 0), ["alpha"], ["*"]⟩ ∧
    semantic_key_s "1.0.0-alpha.1" = some ⟨(1, 0, 0), ["alpha", "00000001"], ["*"]⟩ ∧
    semantic_key_s "1.0.0" = some ⟨(1, 0, 0), ["|"], ["*"]⟩ ∧
    (do pyLt (← semantic_key "1.0.0-alpha") (← semantic_key "1.0.0-alpha.1") :
      Option (Except Unit Bool)) = some (.ok true) ∧
    (do pyLt (← semantic_key "1.0.0-alpha.1") (← semantic_key "1.0.0") :
      Option (Except Unit Bool)) = some (.ok true) :=
  ⟨rfl, rfl, rfl, rfl, rfl⟩

/-- C9 (confirmed): `LegacyVersionScheme` does not override the base
`VersionScheme.suggest`, which returns its argument: the legacy
suggester returns every input string unchanged, never null. -/
theorem legacy_suggest_identity (s : String) : legacy_suggest s = some s :=
  rfl

/-- C6 (confirmed): comparing `Version` values of different schemes
raises a `TypeError` for every one of the six comparison operations;
no cross-scheme comparison returns a boolean. -/
theorem cross_scheme_comparison_errors (x y : PyVersion) (h : x.scheme ≠ y.scheme) :
    vEq x y = .error () ∧ vNe x y = .error () ∧ vLt x y = .error () ∧
    vGt x y = .error () ∧ vLe x y = .error () ∧ vGe x y = .error () := by
  have hc : check_compatible x y = .error () := by
    simp [check_compatible, h]
  have he : vEq x y = .error () := by simp [vEq, hc]
  have hl : vLt x y = .error () := by simp [vLt, hc]
  have hg : vGt x y = .error () := by simp [vGt, hl]
  exact ⟨he, by simp [vNe, he], hl, hg, by simp [vLe, hl], by simp [vGe, hg]⟩

/-- Witness for C6 at the parsed normalized and legacy versions of
`"1.0"`. -/
theorem cross_scheme_comparison_errors_witness :
    mkNormalizedVersion "1.0" =
      some ⟨.normalized, "1.0", .tup [.tup [.int 1], .tup [.str "z"],
                                      .tup [.str "_"], .tup [.str "final"]]⟩ ∧
    mkLegacyVersion "1.0" =
      some ⟨.legacy, "1.0", .tup [.str "00000001", .str "*final"]⟩ ∧
    (vEq ⟨.normalized, "1.0", .tup [.tup [.int 1], .tup [.str "z"],
                                    .tup [.str "_"], .tup [.str "final"]]⟩
         ⟨.legacy, "1.0", .tup [.str "00000001", .str "*final"]⟩ = .error () ∧
     vNe ⟨.normalized, "1.0", .tup [.tup [.int 1], .tup [.str "z"],
                                    .tup [.str "_"], .tup [.str "final"]]⟩
         ⟨.legacy, "1.0", .tup [.str "00000001", .str "*final"]⟩ = .error () ∧
     vLt ⟨.normalized, "1.0", .tup [.tup [.int 1], .tup [.str "z"],
                                    .tup [.str "_"], .tup [.str "final"]]⟩
         ⟨.legacy, "1.0", .tup [.str "00000001", .str "*final"]⟩ = .error () ∧
     vGt ⟨.normalized, "1.0", .tup [.tup [.int 1], .tup [.str "z"],
                                    .tup [.str "_"], .tup [.str "final"]]⟩
         ⟨.legacy, "1.0", .tup [.str "00000001", .str "*final"]⟩ = .error () ∧
     vLe ⟨.normalized, "1.0", .tup [.tup [.int 1], .tup [.str "z"],
                                    .tup [.str "_"], .tup [.str "final"]]⟩
         ⟨.legacy, "1.0", .tup [.str "00000001", .str "*final"]⟩ = .error () ∧
     vGe ⟨.normalized, "1.0", .tup [.tup [.int 1], .tup [.str "z"],
                                    .tup [.str "_"], .tup [.str "final"]]⟩
         ⟨.legacy, "1.0", .tup [.str "00000001", .str "*final"]⟩ = .error ()) :=
  ⟨rfl, rfl, cross_scheme_comparison_errors _ _ (by decide)⟩

/-- C10 (confirmed): a matcher built from a bare name (`"foo"`) has an
empty constraint tuple, and the AND over zero constraints makes `match`
true for every candidate version. -/
theorem matcher_no_constraints (ops : String → PyVersion → PyVersion → Except Unit Bool)
    (m : PyMatcher) (v : PyVersion) (h : m.parts = []) :
    parse_matcher mkNormalizedVersion "foo" = some ⟨"foo", "foo", []⟩ ∧
    matcher_match ops m v = .ok true := by
  refine ⟨rfl, ?_⟩
  simp [matcher_match, h, matcher_match_go]

/-- Witness for C10: the bare-name matcher and a normalized version. -/
theorem matcher_no_constraints_witness :
    parse_matcher mkNormalizedVersion "foo" = some ⟨"foo", "foo", []⟩ ∧
    matcher_match normalized_op ⟨"foo", "foo", []⟩
      ⟨.normalized, "3.7", .tup [.tup [.int 3, .int 7], .tup [.str "z"],
                                 .tup [.str "_"], .tup [.str "final"]]⟩ = .ok true :=
  matcher_no_constraints normalized_op ⟨"foo", "foo", []⟩
    ⟨.normalized, "3.7", .tup [.tup [.int 3, .int 7], .tup [.str "z"],
                               .tup [.str "_"], .tup [.str "final"]]⟩ rfl

theorem vEq_of_same (x y : PyVersion) (hxy : x.scheme = y.scheme) :
    vEq x y = .ok (pyEq x.key y.key) := by
  simp [vEq, check_compatible, hxy]

theorem match_at_front_ok_true_iff (x y : PyVersion) (hxy : x.scheme = y.scheme) :
    match_at_front x y = .ok true ↔
      (pyEq x.key y.key = true ∨ startsWithDot x.str y.str = true) := by
  unfold match_at_front
  rw [vEq_of_same x y hxy]
  cases hq : pyEq x.key y.key
  · cases hp : y.str.data.isPrefixOf x.str.data
    · simp [startsWithDot, hp]
    · cases hg : x.str.data.get? y.str.data.length with
      | none =>
        have hg' : x.str.data[y.str.length]? = none := by
          rw [← List.get?_eq_getElem?]
          exact hg
        simp [startsWithDot, hp, hg']
      | some c =>
        have hg' : x.str.data[y.str.length]? = some c := by
          rw [← List.get?_eq_getElem?]
          exact hg
        simp [startsWithDot, hp, hg']
  · simp

/-- C2 (confirmed): for the normalized matcher, `==` holds exactly when
the candidate equals the bound by parsed key or `str(candidate)` starts
with `str(bound)` followed by a `.` (and `!=` is its negation); in
particular `"foo (==2.5)"` matches `"2.5.4"` and `"foo (==2.50)"` does
not match `"2.5"`. -/
theorem normalized_prefix_matching (x y : PyVersion) (hxy : x.scheme = y.scheme) :
    (normalized_op "==" x y = .ok true ↔
      (pyEq x.key y.key = true ∨ startsWithDot x.str y.str = true)) ∧
    (normalized_op "!=" x y = .ok false ↔
      (pyEq x.key y.key = true ∨ startsWithDot x.str y.str = true)) ∧
    nMatch "foo (==2.5)" "2.5.4" = some true ∧
    nMatch "foo (==2.50)" "2.5" = some false := by
  have hiff := match_at_front_ok_true_iff x y hxy
  refine ⟨?_, ?_, rfl, rfl⟩
  · simpa [normalized_op] using hiff
  · rw [← hiff]
    cases hm : match_at_front x y with
    | error e => simp [normalized_op, hm]
    | ok b => cases b <;> simp [normalized_op, hm]

/-- Witness for C2 at the parsed versions of `"2.5.4"` and `"2.5"`. -/
theorem normalized_prefix_matching_witness :
    normalized_op "=="
      ⟨.normalized, "2.5.4", .tup [.tup [.int 2, .int 5, .int 4], .tup [.str "z"],
                                   .tup [.str "_"], .tup [.str "final"]]⟩
      ⟨.normalized, "2.5", .tup [.tup [.int 2, .int 5], .tup [.str "z"],
                                 .tup [.str "_"], .tup [.str "final"]]⟩ = .ok true ∧
    nMatch "foo (==2.5)" "2.5.4" = some true :=
  ⟨((normalized_prefix_matching
      ⟨.normalized, "2.5.4", .tup [.tup [.int 2, .int 5, .int 4], .tup [.str "z"],
                                   .tup [.str "_"], .tup [.str "final"]]⟩
      ⟨.normalized, "2.5", .tup [.tup [.int 2, .int 5], .tup [.str "z"],
                                 .tup [.str "_"], .tup [.str "final"]]⟩ rfl).1).mpr
      (Or.inr (by decide)),
   (normalized_prefix_matching
      ⟨.normalized, "2.5.4", .tup [.tup [.int 2, .int 5, .int 4], .tup [.str "z"],
                                   .tup [.str "_"], .tup [.str "final"]]⟩
      ⟨.normalized, "2.5", .tup [.tup [.int 2, .int 5], .tup [.str "z"],
                                 .tup [.str "_"], .tup [.str "final"]]⟩ rfl).2.2.1⟩

/-- Counterexample to C5 as stated: the semantic suggester is not
idempotent. `suggest("1.2.3+x_alfa")` returns `"1.2.3+x.alfa"` (no word
boundary before `alfa`, since `_` is a word character), but suggesting
that very output rewrites it again to `"1.2.3+x.alpha"`. -/
theorem semantic_suggest_not_idempotent :
    suggest_semantic_version "1.2.3+x_alfa" = some "1.2.3+x.alfa" ∧
    suggest_semantic_version "1.2.3+x.alfa" = some "1.2.3+x.alpha" ∧
    suggest_semantic_version "1.2.3+x.alfa" ≠ some "1.2.3+x.alfa" :=
  ⟨rfl, rfl, by decide⟩

/-- C5 (corrected): suggestion is idempotent for the normalized and
legacy schemes (the normalized suggester only returns strings its
scheme already accepts, which it then returns unchanged; the legacy
suggester is the identity), but not for the semantic scheme. -/
theorem suggest_idempotent_normalized_legacy (s s2 : String) :
    (normalized_suggest s = some s2 → normalized_suggest s2 = some s2) ∧
    (legacy_suggest s = some s2 → legacy_suggest s2 = some s2) := by
  constructor
  · intro h
    unfold normalized_suggest at h
    by_cases h1 : (normalized_key s).isSome
    · rw [if_pos h1] at h
      obtain rfl : s = s2 := Option.some.inj h
      unfold normalized_suggest
      rw [if_pos h1]
    · rw [if_neg h1] at h
      by_cases h2 : (normalized_key (normalized_rewrite s)).isSome
      · rw [if_pos h2] at h
        obtain rfl : normalized_rewrite s = s2 := Option.some.inj h
        unfold normalized_suggest
        rw [if_pos h2]
      · rw [if_neg h2] at h
        exact absurd h (by simp)
  · intro h
    obtain rfl : s = s2 := Option.some.inj h
    rfl

/-- Witness for C5 at the suggestions for `"1.0.0-alpha"` (normalized)
and `"1.0"` (legacy). -/
theorem suggest_idempotent_normalized_legacy_witness :
    normalized_suggest "1.0.0a0" = some "1.0.0a0" ∧
    legacy_suggest "1.0" = some "1.0" :=
  ⟨(suggest_idempotent_normalized_legacy "1.0.0-alpha" "1.0.0a0").1 rfl,
   (suggest_idempotent_normalized_legacy "1.0" "1.0").2 rfl⟩

/-- Counterexample to C1 as stated: for `"1.0.0-alpha"` the normalized
suggestion does not fail — it returns `"1.0.0a0"` — so the adaptive key
is the normalized parse of the suggestion, not the semantic parse of
the original string (the two keys differ). -/
theorem adaptive_alpha_not_semantic :
    normalized_suggest "1.0.0-alpha" = some "1.0.0a0" ∧
    adaptive_key "1.0.0-alpha" = normalized_key "1.0.0a0" ∧
    adaptive_key "1.0.0-alpha" ≠ semantic_key "1.0.0-alpha" :=
  ⟨rfl, rfl, by decide⟩

/-- C1 (corrected): the adaptive scheme tries the normalized parse
first, then parses a non-null normalized suggestion, then falls back to
the semantic parse of the original string; `"1.0"` succeeds on the
normalized branch, while `"1.0.0-alpha"` fails the normalized parse but
succeeds on the suggestion branch (suggestion `"1.0.0a0"`), not the
semantic branch. -/
theorem adaptive_key_policy :
    (∀ s k, normalized_key s = some k → adaptive_key s = some k) ∧
    (∀ s ss, normalized_key s = none → normalized_suggest s = some ss →
      adaptive_key s = normalized_key ss) ∧
    (∀ s, normalized_key s = none → normalized_suggest s = none →
      adaptive_key s = semantic_key s) ∧
    normalized_key "1.0" ≠ none ∧
    adaptive_key "1.0" = normalized_key "1.0" ∧
    normalized_key "1.0.0-alpha" = none ∧
    normalized_suggest "1.0.0-alpha" = some "1.0.0a0" ∧
    adaptive_key "1.0.0-alpha" = normalized_key "1.0.0a0" ∧
    normalized_key "1.0.0a0" ≠ none := by
  refine ⟨?_, ?_, ?_, by decide, rfl, rfl, rfl, rfl, by decide⟩
  · intro s k h
    simp [adaptive_key, h]
  · intro s ss h1 h2
    simp [adaptive_key, h1, h2]
  · intro s h1 h2
    simp [adaptive_key, h1, h2]

/-- Witness for C1 on the suggestion branch at `"1.0.0-alpha"`. -/
theorem adaptive_key_policy_witness :
    adaptive_key "1.0.0-alpha" = normalized_key "1.0.0a0" :=
  adaptive_key_policy.2.1 "1.0.0-alpha" "1.0.0a0" rfl rfl

theorem takeWhile_head_sat {p : Char → Bool} {l : List Char} {c : Char} {t : List Char}
    (h : l.takeWhile p = c :: t) : p c = true := by
  induction l with
  | nil => simp [List.takeWhile] at h
  | cons a l ih =>
    rw [List.takeWhile_cons] at h
    split at h
    · obtain ⟨rfl, -⟩ := List.cons.inj h
      assumption
    · simp at h

theorem semIdentGroup_pre_shape {lead : Char} {cs : List Char} {ids : List (List Char)}
    {r : List Char} (h : semIdentGroup lead cs = some (some ids, r)) :
    ∃ c t ids2, ids = (c :: t) :: ids2 ∧ isSemAl c = true := by
  unfold semIdentGroup at h
  split at h
  · split at h
    · split at h
      · simp at h
      · rename_i d run ids2 r2 htake hsem
        simp only [Option.some.injEq, Prod.mk.injEq] at h
        obtain ⟨h1, -⟩ := h
        subst h1
        exact ⟨d, run, ids2, rfl, takeWhile_head_sat htake⟩
    · simp at h
  · simp at h

theorem semantic_key_s_pre (s : String) (k : SemKey) (hk : semantic_key_s s = some k) :
    ∃ preIds r5 r6, semIdentGroup '-' r5 = some (preIds, r6) ∧
      k.pre = semMakeTuple preIds "|" := by
  unfold semantic_key_s at hk
  split at hk
  · simp at hk
  · split at hk
    · split at hk
      · simp at hk
      · split at hk
        · split at hk
          · simp at hk
          · split at hk
            · simp at hk
            · split at hk
              · simp at hk
              · split at hk
                · rename_i x1 preIds r6a hpre x2 buildIds r7b hbuild hr7
                  obtain rfl := (Option.some.inj hk).symm
                  exact ⟨preIds, _, r6a, hpre, rfl⟩
                · simp at hk
        · simp at hk
    · simp at hk

theorem pyZfill8_head (c : Char) (rest : List Char) :
    ∃ d t, pyZfill8 (c :: rest) = d :: t ∧ (d = '0' ∨ d = c) := by
  unfold pyZfill8
  split
  · cases hn : 8 - (c :: rest).length with
    | zero => exact ⟨c, rest, by simp, Or.inr rfl⟩
    | succ n =>
      exact ⟨'0', List.replicate n '0' ++ (c :: rest),
        by rw [List.replicate_succ, List.cons_append], Or.inl rfl⟩
  · exact ⟨c, rest, rfl, Or.inr rfl⟩

theorem isSemAl_lt_pipe {c : Char} (h : isSemAl c = true) : c < '|' := by
  unfold isSemAl at h
  simp only [Bool.or_eq_true, Bool.and_eq_true, decide_eq_true_eq] at h
  rcases h with (⟨-, h2⟩ | ⟨-, h2⟩) | ⟨-, h2⟩
  · exact lt_of_le_of_lt h2 (by decide)
  · exact lt_of_le_of_lt h2 (by decide)
  · exact lt_of_le_of_lt h2 (by decide)

theorem strLtb_head_lt {d : Char} {t : List Char} (h : d < '|') :
    strLtb (d :: t) ['|'] = true := by
  unfold strLtb
  rw [if_neg (ne_of_lt h)]
  exact decide_eq_true h

/-- C4 (corrected): in the semantic scheme's key the absent-prerelease
sentinel tuple `("|",)` sorts *after* any prerelease identifier tuple:
for every valid semantic version string with a non-empty prerelease,
that version's prerelease tuple compares less than the sentinel tuple
(the first identifier is non-empty and alphanumeric after zero-filling,
and every such character precedes `'|'`). -/
theorem semantic_sentinel_sorts_after (s : String) (k : SemKey)
    (hk : semantic_key_s s = some k) (hp : k.pre.head? ≠ some "|") :
    pyLt (.tup (k.pre.map PyObj.str)) (.tup [PyObj.str "|"]) = .ok true := by
  obtain ⟨preIds, r5, r6, hpre, hkp⟩ := semantic_key_s_pre s k hk
  cases preIds with
  | none =>
    exact absurd (by rw [hkp]; rfl) hp
  | some ids =>
    obtain ⟨c, t, ids2, rfl, hc⟩ := semIdentGroup_pre_shape hpre
    obtain ⟨d, t2, hz, hd⟩ := pyZfill8_head c t
    have hdlt : d < '|' := by
      rcases hd with rfl | rfl
      · decide
      · exact isSemAl_lt_pipe hc
    rw [hkp]
    show pyLt (.tup ((semMakeTuple (some ((c :: t) :: ids2)) "|").map PyObj.str))
      (.tup [PyObj.str "|"]) = .ok true
    unfold semMakeTuple
    simp only [List.map_cons, List.map_map]
    show pyLtList (PyObj.str (String.mk (pyZfill8 (c :: t))) :: _) [PyObj.str "|"] = .ok true
    rw [hz]
    have hne : pyEq (PyObj.str (String.mk (d :: t2))) (PyObj.str "|") = false := by
      simp only [pyEq]
      rw [beq_eq_false_iff_ne]
      intro hcon
      have : d :: t2 = ['|'] := by
        have := congrArg String.data hcon
        simpa using this
      cases this
      exact absurd rfl (ne_of_lt hdlt)
    unfold pyLtList
    rw [hne]
    show pyLt (PyObj.str (String.mk (d :: t2))) (PyObj.str "|") = .ok true
    unfold pyLt
    rw [show (String.mk (d :: t2)).data = d :: t2 from rfl]
    rw [show ("|" : String).data = ['|'] from rfl]
    rw [strLtb_head_lt hdlt]

/-- Counterexample to C4 as stated: the absent-prerelease sentinel
`("|",)` does not sort before prerelease identifier tuples — `"|"`
(code point 124) is greater than every alphanumeric character, so the
sentinel sorts after them: at `"1.0.0-alpha"` the prerelease tuple is
`("alpha",)` and `("|",) < ("alpha",)` is false (the reverse holds).
This reversed order is what makes prereleases sort below the final
release. -/
theorem semantic_sentinel_not_below :
    semantic_key_s "1.0.0-alpha" = some ⟨(1, 0, 0), ["alpha"], ["*"]⟩ ∧
    pyLt (.tup [PyObj.str "|"]) (.tup [PyObj.str "alpha"]) = .ok false ∧
    pyLt (.tup [PyObj.str "alpha"]) (.tup [PyObj.str "|"]) = .ok true :=
  ⟨rfl, rfl, rfl⟩

/-- Witness for C4 (amended) at `"1.0.0-alpha"`. -/
theorem semantic_sentinel_sorts_after_witness :
    pyLt (.tup ((["alpha"] : List String).map PyObj.str)) (.tup [PyObj.str "|"]) = .ok true :=
  semantic_sentinel_sorts_after "1.0.0-alpha" ⟨(1, 0, 0), ["alpha"], ["*"]⟩ rfl (by decide)

end Distlib
